import Mathlib

/-!
# Verification of the analytics / personalization layer

Shallow embedding of the client- and server-side analytics code of the
`nextjs-demo-site-2026` repository, together with theorems that settle the
stated properties of it.  Effectful TypeScript is modelled as explicit state
passing; JavaScript truthiness of strings is modelled by comparison with the
empty string, and `undefined` / absent values by `Option`.
-/

namespace CMS

/-- An Agility CMS URL field (`URLField` from `@agility/nextjs`). -/
structure URLField where
  href : String
  target : String
  text : String
  deriving DecidableEq, Repr

/-- An Agility CMS image field (`ImageField` from `@agility/nextjs`). -/
structure ImageField where
  url : String
  label : String
  deriving DecidableEq, Repr

end CMS

namespace QueuedProvider

/-!
## Queued PostHog provider

Embeds the queueing analytics provider variant (`eventQueue`,
`waitForPostHogAndFlush` and the four provider methods
`identify` / `track` / `page` / `group`).  Each method checks `getPostHog()`;
when it returns `null` the call is pushed onto `eventQueue` and the flush poll
is started, otherwise the call is forwarded to the SDK (a "capture").  The SDK
side effect is recorded as the forwarded event itself.
-/

/-- The four shapes of queued analytics calls (`QueuedEvent`). -/
inductive QueuedEvent where
  | identify (userId : String) (traits : List (String × String))
  | track (event : String) (properties : List (String × String))
  | page (name : String) (properties : List (String × String))
  | group (groupId : String) (traits : List (String × String))
  deriving DecidableEq, Repr

/-- Module-level state of the provider: the pending `eventQueue` and the
calls already forwarded to the PostHog SDK, in forwarding order. -/
structure ProviderState where
  eventQueue : List QueuedEvent
  captured : List QueuedEvent
  deriving DecidableEq, Repr

/-- Forward one call directly to the ready SDK (the non-queueing branch of
each provider method). -/
def dispatchReady (s : ProviderState) (e : QueuedEvent) : ProviderState :=
  { s with captured := s.captured ++ [e] }

/-- One provider method call (`identify` / `track` / `page` / `group`):
if the SDK is not ready the event is appended to the queue, otherwise it is
forwarded to the SDK. -/
def providerCall (ready : Bool) (e : QueuedEvent) (s : ProviderState) : ProviderState :=
  if ready then dispatchReady s e
  else { s with eventQueue := s.eventQueue ++ [e] }

/-- The `while (eventQueue.length > 0)` loop of `checkAndFlush`: shift each
event off the queue in order and re-dispatch it through the provider with the
SDK now ready. -/
def drainQueue : List QueuedEvent → ProviderState → ProviderState
  | [], s => s
  | e :: rest, s => drainQueue rest (dispatchReady s e)

/-- One execution of the `checkAndFlush` body at a step where SDK readiness
is `ready`: when ready and the queue is nonempty, the whole queue is drained;
when ready and empty nothing happens; when not ready nothing happens here and
the poll re-arms (modelled by `flushPollAux` below). -/
def checkAndFlush (ready : Bool) (s : ProviderState) : ProviderState :=
  if ready ∧ s.eventQueue ≠ [] then
    drainQueue s.eventQueue { s with eventQueue := [] }
  else s

/-- The 100ms retry loop of `waitForPostHogAndFlush`, polling readiness at
attempts `k, k+1, …`; `fuel` bounds how many polls we observe.  `none` means
the poll is still pending (no flush has happened) after `fuel` checks. -/
def flushPollAux (ready : Nat → Bool) (s : ProviderState) (k : Nat) :
    Nat → Option ProviderState
  | 0 => none
  | fuel + 1 =>
    if ready k then some (checkAndFlush true s)
    else flushPollAux ready s (k + 1) fuel

/-- Entry point `waitForPostHogAndFlush`, observed for `fuel` readiness
checks. -/
def flushPoll (ready : Nat → Bool) (s : ProviderState) (fuel : Nat) :
    Option ProviderState :=
  flushPollAux ready s 0 fuel

end QueuedProvider

namespace ClientProvider

/-!
## The bounded readiness helper of `posthog-provider.ts`

`waitForPostHog(callback, maxAttempts)` increments an attempt counter on
every check; when `getPostHog()` is ready it calls the callback, otherwise
it re-arms while `attempts < maxAttempts` and logs a warning when the
attempts are exhausted.  Readiness at the `i`-th check (0-based) is the
oracle `ready i`.
-/

/-- Outcome of `waitForPostHog`: either the callback was invoked (exactly
once) after `checks` readiness checks, or the helper gave up with a console
warning after `checks` checks without ever invoking the callback. -/
inductive WaitResult where
  | called (checks : Nat)
  | gaveUp (checks : Nat)
  deriving DecidableEq, Repr

/-- The recursive `check` closure.  `done` is the number of checks already
performed, and `remaining` is `maxAttempts - (done + 1)`, the number of
re-arms still permitted after the current check. -/
def waitCheck (ready : Nat → Bool) (done : Nat) : Nat → WaitResult
  | 0 =>
    if ready done then WaitResult.called (done + 1) else WaitResult.gaveUp (done + 1)
  | r + 1 =>
    if ready done then WaitResult.called (done + 1) else waitCheck ready (done + 1) r

/-- `waitForPostHog` with readiness oracle `ready` and bound `maxAttempts`
(the source default is 10).  The first check always runs, then at most
`maxAttempts - 1` re-arms follow. -/
def waitForPostHog (ready : Nat → Bool) (maxAttempts : Nat) : WaitResult :=
  waitCheck ready 0 (maxAttempts - 1)

/-- Number of readiness checks performed in a `WaitResult`. -/
def checksOf : WaitResult → Nat
  | WaitResult.called n => n
  | WaitResult.gaveUp n => n

end ClientProvider

namespace ServerPostHog

/-!
## Server-side PostHog client, flag evaluation and event tracking

Embeds `getPostHogClient` (module `get-client`), `trackEvent`
(`src/lib/posthog/track-event.ts`), `getFeatureFlagVariant`, and the
`posthog.init` guard of `src/instrumentation-client.ts`.  The environment
variables `NEXT_PUBLIC_POSTHOG_KEY` / `NEXT_PUBLIC_POSTHOG_HOST` are
`Option String` (`none` = unset).
-/

/-- JavaScript falsiness of an environment variable: unset or empty. -/
def envFalsy : Option String → Bool
  | none => true
  | some s => s == ""

/-- `getPostHogClient`: `null` when either credential is falsy, otherwise a
client handle built from the key and host.  (The `initAttempted` memo always
returns the same value for a fixed environment, so the function is pure.) -/
def getPostHogClient (key host : Option String) : Option (String × String) :=
  if envFalsy key || envFalsy host then none
  else some (key.getD "", host.getD "")

/-- A server-side `client.capture` call. -/
structure Capture where
  distinctId : String
  event : String
  properties : List (String × String)
  deriving DecidableEq, Repr

/-- `trackEvent`: the list of captures performed (empty when the client is
not configured).  The surrounding `try/catch` means the function always
returns normally, which the total Lean function models. -/
def trackEvent (key host : Option String) (event distinctId : String)
    (properties : List (String × String)) : List Capture :=
  match getPostHogClient key host with
  | none => []
  | some _ => [{ distinctId := distinctId, event := event, properties := properties }]

/-- The guard of `instrumentation-client.ts`: `posthog.init` runs exactly
when both `NEXT_PUBLIC_POSTHOG_KEY` and `NEXT_PUBLIC_POSTHOG_HOST` are
truthy. -/
def clientInitRuns (key host : Option String) : Bool :=
  !(envFalsy key) && !(envFalsy host)

/-- Value of a PostHog feature flag: a variant key, a boolean, or
`undefined`. -/
inductive FlagValue where
  | str (s : String)
  | onOff (b : Bool)
  | undef
  deriving DecidableEq, Repr

/-- `getFeatureFlagVariant`: `undefined` when the client is not configured;
otherwise the SDK result, with a thrown error caught and turned into
`undefined`. -/
def getFeatureFlagVariant (key host : Option String)
    (sdkResult : Except String FlagValue) : FlagValue :=
  match getPostHogClient key host with
  | none => FlagValue.undef
  | some _ =>
    match sdkResult with
    | Except.ok v => v
    | Except.error _ => FlagValue.undef

end ServerPostHog

namespace ABHero

/-!
## ABTestHero: server component and client variant selection

Embeds the variant list built by the `ABTestHero` server component and the
variant selection of `ABTestHeroClient` (PostHog hook value `flagVariant`,
mount flag `hasMounted`, control fallback).
-/

/-- A hero variant content item (`IHeroVariant`). -/
structure HeroVariant where
  variant : String
  heading : String
  description : String
  callToAction : Option CMS.URLField
  image : CMS.ImageField
  imagePosition : Option String
  deriving DecidableEq, Repr

/-- `allVariants.find(v => v.variant === "control") || allVariants[0]`. -/
def controlVariant (allVariants : List HeroVariant) : Option HeroVariant :=
  match allVariants.find? (fun v => v.variant == "control") with
  | some v => some v
  | none => allVariants.head?

/-- JavaScript truthiness of the feature-flag hook value
(`undefined`, `false` and the empty string are falsy; a boolean `true` flag
never equals a variant name, so flags are modelled by their string value). -/
def flagTruthy : Option String → Bool
  | none => false
  | some s => !(s == "")

/-- The `selectedVariant` expression of `ABTestHeroClient`:
control before mount or on a falsy flag, otherwise the variant named by the
flag with control as fallback. -/
def selectedVariant (hasMounted : Bool) (flagVariant : Option String)
    (allVariants : List HeroVariant) : Option HeroVariant :=
  if hasMounted && flagTruthy flagVariant then
    match flagVariant with
    | some s =>
      match allVariants.find? (fun v => v.variant == s) with
      | some v => some v
      | none => controlVariant allVariants
    | none => controlVariant allVariants
  else controlVariant allVariants

/-- What `ABTestHeroClient` renders: the loading skeleton, or the section
markup for a hero variant (`none` only when `allVariants` is empty, where
the JavaScript destructuring of `selectedVariant` would throw). -/
inductive RenderedHero where
  | skeleton
  | content (v : Option HeroVariant)
  deriving DecidableEq, Repr

/-- The `isLoading` condition: after mount while the flag value is still
`undefined`. -/
def isLoading (hasMounted : Bool) (flagVariant : Option String) : Bool :=
  hasMounted && flagVariant.isNone

/-- The rendered output of `ABTestHeroClient`: the skeleton when
`isLoading`, otherwise the section for `selectedVariant`. -/
def renderedHero (hasMounted : Bool) (flagVariant : Option String)
    (allVariants : List HeroVariant) : RenderedHero :=
  if isLoading hasMounted flagVariant then RenderedHero.skeleton
  else RenderedHero.content (selectedVariant hasMounted flagVariant allVariants)

/-- The control variant the `ABTestHero` server component constructs from
the main content item's fields (with the `imagePosition = "right"` default
applied at destructuring). -/
def abTestHeroControl (heading description : String)
    (callToAction : Option CMS.URLField) (image : CMS.ImageField)
    (imagePosition : Option String) : HeroVariant :=
  { variant := "control", heading := heading, description := description,
    callToAction := callToAction, image := image,
    imagePosition := some (imagePosition.getD "right") }

/-- The `allVariants` list built by the `ABTestHero` server component,
paired with whether the variant fetch logged a warning.  `variantsRef` is
`variants?.referencename`; `fetchResult` is the outcome of `getContentList`
(`Except.error` = thrown, `Except.ok` carries `items?.map(...)` as an
`Option`, `none` when `items` is `undefined`). -/
def abTestHeroAllVariants (heading description : String)
    (callToAction : Option CMS.URLField) (image : CMS.ImageField)
    (imagePosition : Option String) (variantsRef : Option String)
    (fetchResult : Except String (Option (List HeroVariant))) :
    List HeroVariant × Bool :=
  let fetched : List HeroVariant × Bool :=
    match variantsRef with
    | none => ([], false)
    | some r =>
      if r == "" then ([], false)
      else
        match fetchResult with
        | Except.error _ => ([], true)
        | Except.ok items => (items.getD [], false)
  (abTestHeroControl heading description callToAction image imagePosition :: fetched.1,
   fetched.2)

end ABHero

namespace Milestones

/-!
## Per-page milestone tracking

Embeds the shared shape of `trackMilestone` in `useScrollTracking`
(scroll depths 25/50/75/100) and `useTimeOnPage` (30/60/120/300 seconds):
a mutable `reachedMilestones` set guards event emission, and the route-change
effect replaces the set by a fresh empty one.
-/

/-- `trackMilestone`: no-op when the milestone is already in the reached
set, otherwise emit one analytics event for it and add it to the set. -/
def trackMilestone (m : Nat) (reached : Finset Nat) : Finset Nat × List Nat :=
  if m ∈ reached then (reached, [])
  else (insert m reached, [m])

/-- An observable step of the hook state: a milestone check that fires
`trackMilestone`, or the route-change reset effect. -/
inductive PageStep where
  | milestone (m : Nat)
  | routeChange
  deriving DecidableEq, Repr

/-- Execute one step; the second component is the list of analytics events
emitted by the step. -/
def runStep (reached : Finset Nat) : PageStep → Finset Nat × List Nat
  | PageStep.milestone m => trackMilestone m reached
  | PageStep.routeChange => (∅, [])

/-- Execute a sequence of steps, concatenating emitted events in order. -/
def runTrace (reached : Finset Nat) : List PageStep → Finset Nat × List Nat
  | [] => (reached, [])
  | st :: rest =>
    let r1 := runStep reached st
    let r2 := runTrace r1.1 rest
    (r2.1, r1.2 ++ r2.2)

end Milestones

namespace Personalization

/-!
## Audience personalization

Embeds the content substitution of `PersonalizedBackgroundHero` and the
customer filtering of `PersonalizedLogoStrip`.  The external resolver
`getAudienceContentID` (defined outside the sources at hand) is abstracted
by its result `audienceContentID : Option Nat`, `none` standing for a falsy
result (no audience matched a CMS segment item).
-/

/-- The personalizable field set of the background hero.  String fields use
`""` for an absent/empty CMS value (JavaScript-falsy). -/
structure PBHContent where
  heading : String
  description : String
  cta1 : Option CMS.URLField
  cta2 : Option CMS.URLField
  backgroundType : String
  backgroundImage : Option CMS.ImageField
  deriving DecidableEq, Repr

/-- A personalized hero item: the linked audience content ID
(`fields.audienceDropdown?.contentID`) and its content fields. -/
structure PBHItem where
  audienceDropdown : Option Nat
  content : PBHContent
  deriving DecidableEq, Repr

/-- JavaScript `p || d` on a string field. -/
def strFallback (p d : String) : String :=
  if p == "" then d else p

/-- JavaScript `p || d` on an optional field. -/
def optFallback {α : Type} (p d : Option α) : Option α :=
  match p with
  | some x => some x
  | none => d

/-- The `selectedContent` built from a matching personalized item: each
field falls back per-field to the default content. -/
def mergeContent (p d : PBHContent) : PBHContent :=
  { heading := strFallback p.heading d.heading,
    description := strFallback p.description d.description,
    cta1 := optFallback p.cta1 d.cta1,
    cta2 := optFallback p.cta2 d.cta2,
    backgroundType := strFallback p.backgroundType d.backgroundType,
    backgroundImage := optFallback p.backgroundImage d.backgroundImage }

/-- The selection logic of `PersonalizedBackgroundHero`: the resulting
`selectedContent` and the `isPersonalized` flag. -/
def personalizedBackgroundHero (default : PBHContent) (items : List PBHItem)
    (searchParamsPresent : Bool) (audienceContentID : Option Nat) :
    PBHContent × Bool :=
  if searchParamsPresent then
    match audienceContentID with
    | some aid =>
      match items.find? (fun item => item.audienceDropdown == some aid) with
      | some p => (mergeContent p.content default, true)
      | none => (default, false)
    | none => (default, false)
  else (default, false)

/-- A customer profile content item as used by `PersonalizedLogoStrip`:
its linked audience content ID is `fields.audience?.contentID`. -/
structure CustomerProfile where
  title : String
  audience : Option Nat
  deriving DecidableEq, Repr

/-- The customer filtering of `PersonalizedLogoStrip`. -/
def personalizedLogoStrip (customers : List CustomerProfile)
    (searchParamsPresent : Bool) (audienceContentID : Option Nat) :
    List CustomerProfile :=
  if searchParamsPresent then
    match audienceContentID with
    | some aid => customers.filter (fun c => c.audience == some aid)
    | none => customers
  else customers

end Personalization

namespace ScrollDepth

/-- `getScrollDepth` of `useScrollTracking`, on the browser quantities
`window.scrollY`, `document.documentElement.scrollHeight` and
`window.innerHeight` (rationals standing for JavaScript numbers; `round` is
`Math.round`). -/
def getScrollDepth (scrollTop docHeight winHeight : ℚ) : ℤ :=
  let scrollableHeight := docHeight - winHeight
  if scrollableHeight ≤ 0 then 100
  else min 100 (round (scrollTop / scrollableHeight * 100))

end ScrollDepth

namespace UserId

/-!
## `getOrCreateUserId` of `src/lib/analytics/index.ts`

localStorage at the key `analytics_user_id` is the `store` argument
(`none` = absent); `now` and `rand` feed the id generator.
-/

/-- The generated anonymous id `anon_${Date.now()}_${random}`. -/
def mkUserId (now : Nat) (rand : String) : String :=
  "anon_" ++ toString now ++ "_" ++ rand

/-- `getOrCreateUserId`: returns the id and the resulting stored value.
On the server (`window` undefined) it returns `"server"` without touching
storage; otherwise a falsy stored value (absent or empty) is replaced by a
fresh id which is stored and returned. -/
def getOrCreateUserId (windowDefined : Bool) (store : Option String)
    (now : Nat) (rand : String) : String × Option String :=
  if !windowDefined then ("server", store)
  else
    match store with
    | none => (mkUserId now rand, some (mkUserId now rand))
    | some uid =>
      if uid == "" then (mkUserId now rand, some (mkUserId now rand))
      else (uid, store)

end UserId

namespace Sample

/-!
Concrete content items used to evaluate the definitions on closed inputs.
-/

/-- A concrete image field. -/
def image : CMS.ImageField :=
  { url := "https://cdn.example.com/hero.png", label := "hero" }

/-- A concrete control hero variant. -/
def control : ABHero.HeroVariant :=
  { variant := "control", heading := "Build faster", description := "Ship sites",
    callToAction := none, image := image, imagePosition := none }

/-- A concrete treatment hero variant. -/
def treatment : ABHero.HeroVariant :=
  { variant := "treatment", heading := "Build better", description := "Ship more",
    callToAction := none, image := image, imagePosition := none }

/-- Default background-hero content. -/
def defaultContent : Personalization.PBHContent :=
  { heading := "Welcome", description := "Generic pitch", cta1 := none, cta2 := none,
    backgroundType := "gradient", backgroundImage := none }

/-- Personalized background-hero content with an empty description (falls
back per-field). -/
def persContent : Personalization.PBHContent :=
  { heading := "Welcome, enterprise", description := "",
    cta1 := some { href := "/enterprise", target := "", text := "Enterprise" },
    cta2 := none, backgroundType := "", backgroundImage := none }

/-- A personalized hero item linked to audience content ID 7. -/
def persItem : Personalization.PBHItem :=
  { audienceDropdown := some 7, content := persContent }

/-- A customer profile in audience 7. -/
def customerA : Personalization.CustomerProfile :=
  { title := "Acme", audience := some 7 }

/-- A customer profile with no audience link. -/
def customerB : Personalization.CustomerProfile :=
  { title := "Globex", audience := none }

end Sample

/-!
# Helper lemmas
-/

namespace QueuedProvider

lemma drainQueue_spec (q : List QueuedEvent) (s : ProviderState) :
    drainQueue q s = { eventQueue := s.eventQueue, captured := s.captured ++ q } := by
  induction q generalizing s with
  | nil => simp [drainQueue]
  | cons e rest ih =>
    simp [drainQueue, dispatchReady, ih]

lemma checkAndFlush_ready (s : ProviderState) :
    checkAndFlush true s = { eventQueue := [], captured := s.captured ++ s.eventQueue } := by
  by_cases h : s.eventQueue = []
  · cases s with
    | mk q c => simp_all [checkAndFlush]
  · simp [checkAndFlush, h, drainQueue_spec]

lemma foldl_providerCall_not_ready (evs : List QueuedEvent) (s : ProviderState) :
    evs.foldl (fun st e => providerCall false e st) s =
      { eventQueue := s.eventQueue ++ evs, captured := s.captured } := by
  induction evs generalizing s with
  | nil => simp
  | cons e rest ih =>
    rw [List.foldl_cons, ih]
    simp [providerCall]

lemma flushPollAux_never_ready (ready : Nat → Bool) (s : ProviderState)
    (h : ∀ i, ready i = false) (k fuel : Nat) :
    flushPollAux ready s k fuel = none := by
  induction fuel generalizing k with
  | zero => rfl
  | succ fuel ih => simp [flushPollAux, h, ih]

end QueuedProvider

namespace ClientProvider

lemma waitCheck_checks_le (ready : Nat → Bool) (r d : Nat) :
    checksOf (waitCheck ready d r) ≤ d + r + 1 := by
  induction r generalizing d with
  | zero =>
    by_cases h : ready d = true <;> simp [waitCheck, h, checksOf]
  | succ r ih =>
    by_cases h : ready d = true
    · simp [waitCheck, h, checksOf]
    · simp [waitCheck, h]
      have := ih (d + 1)
      omega

lemma waitCheck_checks_pos (ready : Nat → Bool) (r d : Nat) :
    d + 1 ≤ checksOf (waitCheck ready d r) := by
  induction r generalizing d with
  | zero =>
    by_cases h : ready d = true <;> simp [waitCheck, h, checksOf]
  | succ r ih =>
    by_cases h : ready d = true
    · simp [waitCheck, h, checksOf]
    · simp [waitCheck, h]
      have := ih (d + 1)
      omega

lemma waitCheck_never_ready (ready : Nat → Bool) (r d : Nat)
    (h : ∀ i, i ≤ d + r → ready i = false) :
    waitCheck ready d r = WaitResult.gaveUp (d + r + 1) := by
  induction r generalizing d with
  | zero =>
    have hd : ready d = false := h d (by omega)
    simp [waitCheck, hd]
  | succ r ih =>
    have hd : ready d = false := h d (by omega)
    have step := ih (d + 1) (fun i hi => h i (by omega))
    simp [waitCheck, hd, step]
    omega

lemma waitCheck_first_ready (ready : Nat → Bool) (r d i : Nat)
    (hdi : d ≤ i) (hir : i ≤ d + r)
    (hbefore : ∀ j, d ≤ j → j < i → ready j = false)
    (hready : ready i = true) :
    waitCheck ready d r = WaitResult.called (i + 1) := by
  induction r generalizing d with
  | zero =>
    have : d = i := by omega
    subst this
    simp [waitCheck, hready]
  | succ r ih =>
    rcases Nat.eq_or_lt_of_le hdi with hεq | hlt
    · subst hεq
      simp [waitCheck, hready]
    · have hd : ready d = false := hbefore d (le_refl d) hlt
      have step := ih (d + 1) (by omega) (by omega)
        (fun j hj hji => hbefore j (by omega) hji)
      simp [waitCheck, hd, step]

end ClientProvider

namespace Milestones

lemma runTrace_nil (s : Finset Nat) : runTrace s [] = (s, []) := rfl

lemma runTrace_cons (s : Finset Nat) (st : PageStep) (rest : List PageStep) :
    runTrace s (st :: rest) =
      ((runTrace (runStep s st).1 rest).1,
       (runStep s st).2 ++ (runTrace (runStep s st).1 rest).2) := rfl

lemma runTrace_not_in_events (m : Nat) (steps : List PageStep) :
    ∀ s : Finset Nat, PageStep.routeChange ∉ steps → m ∈ s →
      (runTrace s steps).2.count m = 0 ∧ m ∈ (runTrace s steps).1 := by
  induction steps with
  | nil =>
    intro s _ hm
    simpa [runTrace]
  | cons st rest ih =>
    intro s hnr hm
    have hrest : PageStep.routeChange ∉ rest := fun h => hnr (List.mem_cons_of_mem _ h)
    cases st with
    | routeChange => exact absurd (List.mem_cons_self _ _) hnr
    | milestone m2 =>
      rw [runTrace_cons]
      by_cases h2 : m2 ∈ s
      · simpa [runStep, trackMilestone, h2] using ih s hrest hm
      · have hne : m2 ≠ m := fun h => h2 (h ▸ hm)
        have := ih (insert m2 s) hrest (Finset.mem_insert_of_mem hm)
        simpa [runStep, trackMilestone, h2, List.count_cons, hne] using this

lemma runTrace_subset (steps : List PageStep) :
    ∀ s : Finset Nat, PageStep.routeChange ∉ steps → s ⊆ (runTrace s steps).1 := by
  induction steps with
  | nil =>
    intro s _
    simp [runTrace]
  | cons st rest ih =>
    intro s hnr
    have hrest : PageStep.routeChange ∉ rest := fun h => hnr (List.mem_cons_of_mem _ h)
    cases st with
    | routeChange => exact absurd (List.mem_cons_self _ _) hnr
    | milestone m2 =>
      rw [runTrace_cons]
      by_cases h2 : m2 ∈ s
      · simpa [runStep, trackMilestone, h2] using ih s hrest
      · simp only [runStep, trackMilestone, h2, if_false]
        exact subset_trans (Finset.subset_insert m2 s) (ih (insert m2 s) hrest)

lemma runTrace_count_le_one (m : Nat) (steps : List PageStep) :
    ∀ s : Finset Nat, PageStep.routeChange ∉ steps →
      (runTrace s steps).2.count m ≤ 1 := by
  induction steps with
  | nil =>
    intro s _
    simp [runTrace]
  | cons st rest ih =>
    intro s hnr
    have hrest : PageStep.routeChange ∉ rest := fun h => hnr (List.mem_cons_of_mem _ h)
    cases st with
    | routeChange => exact absurd (List.mem_cons_self _ _) hnr
    | milestone m2 =>
      rw [runTrace_cons]
      by_cases h2 : m2 ∈ s
      · simpa [runStep, trackMilestone, h2] using ih s hrest
      · by_cases hm2 : m2 = m
        · subst hm2
          have hzero := (runTrace_not_in_events m2 rest (insert m2 s) hrest
            (Finset.mem_insert_self m2 s)).1
          simp [runStep, trackMilestone, h2, List.count_cons, hzero]
        · have hne : m2 ≠ m := hm2
          simpa [runStep, trackMilestone, h2, List.count_cons, hne] using
            ih (insert m2 s) hrest

end Milestones

namespace UserId

lemma mkUserId_ne_empty (now : Nat) (rand : String) : mkUserId now rand ≠ "" := by
  intro h
  have h2 : (mkUserId now rand).length = 0 := by rw [h]; rfl
  rw [mkUserId] at h2
  simp only [String.length_append] at h2
  have h5 : "anon_".length = 5 := rfl
  have h1 : "_".length = 1 := rfl
  omega

end UserId

/-!
# Claim theorems
-/

/-- C1: for every sequence of analytics calls made through the queued
`PostHogProvider` while the SDK is not ready, each call is appended to
`eventQueue` and nothing is captured; when the flush loop then runs with the
SDK ready, every queued event is forwarded to the SDK in FIFO order (the
order the calls were made) and the queue is left empty. -/
theorem posthog_queue_fifo_flush (evs : List QueuedProvider.QueuedEvent)
    (s : QueuedProvider.ProviderState) :
    (evs.foldl (fun st e => QueuedProvider.providerCall false e st) s).eventQueue =
        s.eventQueue ++ evs ∧
    (evs.foldl (fun st e => QueuedProvider.providerCall false e st) s).captured =
        s.captured ∧
    (QueuedProvider.checkAndFlush true
        (evs.foldl (fun st e => QueuedProvider.providerCall false e st) s)).captured =
      s.captured ++ (s.eventQueue ++ evs) ∧
    (QueuedProvider.checkAndFlush true
        (evs.foldl (fun st e => QueuedProvider.providerCall false e st) s)).eventQueue =
      [] := by
  refine ⟨?_, ?_, ?_, ?_⟩ <;>
    simp [QueuedProvider.foldl_providerCall_not_ready, QueuedProvider.checkAndFlush_ready]

/-- C2: on the server render and on the initial client render (before the
mount effect sets `hasMounted`), `ABTestHeroClient` renders the control
variant — the element of `allVariants` whose `variant` field is `"control"`,
or the first element when none is — for every value of the feature flag. -/
theorem abtesthero_prehydration_renders_control (flagVariant : Option String)
    (vs : List ABHero.HeroVariant) (h : vs ≠ []) :
    ∃ c, ABHero.renderedHero false flagVariant vs =
        ABHero.RenderedHero.content (some c) ∧
      ABHero.controlVariant vs = some c ∧
      (vs.find? (fun v => v.variant == "control") = some c ∨
        (vs.find? (fun v => v.variant == "control") = none ∧ vs.head? = some c)) := by
  have hsel : ABHero.renderedHero false flagVariant vs =
      ABHero.RenderedHero.content (ABHero.controlVariant vs) := by
    simp [ABHero.renderedHero, ABHero.isLoading, ABHero.selectedVariant]
  cases hf : vs.find? (fun v => v.variant == "control") with
  | some v =>
    refine ⟨v, ?_, ?_, Or.inl rfl⟩
    · rw [hsel]
      simp [ABHero.controlVariant, hf]
    · simp [ABHero.controlVariant, hf]
  | none =>
    cases vs with
    | nil => exact absurd rfl h
    | cons a t =>
      refine ⟨a, ?_, ?_, Or.inr ⟨rfl, rfl⟩⟩
      · rw [hsel]
        simp [ABHero.controlVariant, hf]
      · simp [ABHero.controlVariant, hf]

/-- C2 witness: concrete evaluation on a two-variant list with the flag set
to the treatment variant. -/
theorem abtesthero_prehydration_renders_control_witness :
    ∃ c, ABHero.renderedHero false (some "treatment")
        [Sample.treatment, Sample.control] = ABHero.RenderedHero.content (some c) ∧
      ABHero.controlVariant [Sample.treatment, Sample.control] = some c ∧
      ([Sample.treatment, Sample.control].find? (fun v => v.variant == "control") =
          some c ∨
        ([Sample.treatment, Sample.control].find? (fun v => v.variant == "control") =
            none ∧
          [Sample.treatment, Sample.control].head? = some c)) :=
  abtesthero_prehydration_renders_control (some "treatment")
    [Sample.treatment, Sample.control] (by simp)

/-- C3 counterexample: after hydration, while the client-side flag value is
still `undefined`, `ABTestHeroClient` renders the loading skeleton rather
than the control variant, so "whenever feature-flag evaluation yields no
variant the component renders the control variant" fails at the concrete
input `hasMounted = true`, `flagVariant = undefined`,
`allVariants = [control]`. -/
theorem abtest_undefined_flag_renders_skeleton :
    ABHero.renderedHero true none [Sample.control] =
      ABHero.RenderedHero.skeleton ∧
    ABHero.renderedHero true none [Sample.control] ≠
      ABHero.RenderedHero.content (ABHero.controlVariant [Sample.control]) := by
  constructor
  · rfl
  · decide

/-- C3 (amended): server-side `getFeatureFlagVariant` returns `undefined`
on missing configuration or SDK error; client-side, the control variant is
rendered before mount (for every flag value) and after mount whenever the
flag value is defined but falsy or names a variant not in `allVariants`;
after mount while the flag value is still `undefined` the component renders
the loading skeleton instead. -/
theorem abtest_no_variant_control_fallback :
    (∀ (key host : Option String) (r : Except String ServerPostHog.FlagValue),
        key = none ∨ host = none →
        ServerPostHog.getFeatureFlagVariant key host r =
          ServerPostHog.FlagValue.undef) ∧
    (∀ (key host : Option String) (e : String),
        ServerPostHog.getFeatureFlagVariant key host (Except.error e) =
          ServerPostHog.FlagValue.undef) ∧
    (∀ (flagVariant : Option String) (vs : List ABHero.HeroVariant),
        ABHero.renderedHero false flagVariant vs =
          ABHero.RenderedHero.content (ABHero.controlVariant vs)) ∧
    (∀ (s : String) (vs : List ABHero.HeroVariant),
        vs.find? (fun v => v.variant == s) = none →
        ABHero.renderedHero true (some s) vs =
          ABHero.RenderedHero.content (ABHero.controlVariant vs)) ∧
    (∀ vs : List ABHero.HeroVariant,
        ABHero.renderedHero true (some "") vs =
          ABHero.RenderedHero.content (ABHero.controlVariant vs)) ∧
    (∀ vs : List ABHero.HeroVariant,
        ABHero.renderedHero true none vs = ABHero.RenderedHero.skeleton) := by
  refine ⟨?_, ?_, ?_, ?_, ?_, ?_⟩
  · intro key host r h
    rcases h with h | h <;> subst h <;>
      simp [ServerPostHog.getFeatureFlagVariant, ServerPostHog.getPostHogClient,
        ServerPostHog.envFalsy]
  · intro key host e
    cases hc : ServerPostHog.getPostHogClient key host <;>
      simp [ServerPostHog.getFeatureFlagVariant, hc]
  · intro flagVariant vs
    simp [ABHero.renderedHero, ABHero.isLoading, ABHero.selectedVariant]
  · intro s vs hf
    by_cases hs : s = ""
    · subst hs
      simp [ABHero.renderedHero, ABHero.isLoading, ABHero.selectedVariant,
        ABHero.flagTruthy]
    · simp [ABHero.renderedHero, ABHero.isLoading, ABHero.selectedVariant,
        ABHero.flagTruthy, hs, hf]
  · intro vs
    simp [ABHero.renderedHero, ABHero.isLoading, ABHero.selectedVariant,
      ABHero.flagTruthy]
  · intro vs
    rfl

/-- C3 witness: concrete evaluations of the fallback paths. -/
theorem abtest_no_variant_control_fallback_witness :
    ServerPostHog.getFeatureFlagVariant none (some "https://us.posthog.com")
        (Except.ok (ServerPostHog.FlagValue.str "treatment")) =
      ServerPostHog.FlagValue.undef ∧
    ServerPostHog.getFeatureFlagVariant (some "phc_key") (some "https://us.posthog.com")
        (Except.error "network down") = ServerPostHog.FlagValue.undef ∧
    ABHero.renderedHero false none [Sample.control] =
      ABHero.RenderedHero.content (ABHero.controlVariant [Sample.control]) ∧
    ABHero.renderedHero true (some "ghost") [Sample.control] =
      ABHero.RenderedHero.content (ABHero.controlVariant [Sample.control]) ∧
    ABHero.renderedHero true (some "") [Sample.control] =
      ABHero.RenderedHero.content (ABHero.controlVariant [Sample.control]) ∧
    ABHero.renderedHero true none [Sample.control] =
      ABHero.RenderedHero.skeleton := by
  have h := abtest_no_variant_control_fallback
  exact ⟨h.1 none (some "https://us.posthog.com") _ (Or.inl rfl),
    h.2.1 (some "phc_key") (some "https://us.posthog.com") "network down",
    h.2.2.1 none [Sample.control],
    h.2.2.2.1 "ghost" [Sample.control] (by decide),
    h.2.2.2.2.1 [Sample.control],
    h.2.2.2.2.2 [Sample.control]⟩

/-- C4: for every milestone `m`, at most one analytics event for `m` is
emitted between two consecutive route changes: `trackMilestone` is a no-op
when `m` is already in the reached set, the set only grows on milestone
steps, the route-change step resets it to empty, and any trace without a
route change emits at most one event for `m`. -/
theorem milestone_single_fire_per_route :
    (∀ (m : Nat) (s : Finset Nat), m ∈ s →
        Milestones.trackMilestone m s = (s, [])) ∧
    (∀ (m : Nat) (s : Finset Nat), s ⊆ (Milestones.trackMilestone m s).1) ∧
    (∀ s : Finset Nat,
        Milestones.runStep s Milestones.PageStep.routeChange = (∅, [])) ∧
    (∀ (m : Nat) (s : Finset Nat) (steps : List Milestones.PageStep),
        Milestones.PageStep.routeChange ∉ steps →
        s ⊆ (Milestones.runTrace s steps).1 ∧
        (Milestones.runTrace s steps).2.count m ≤ 1) := by
  refine ⟨?_, ?_, ?_, ?_⟩
  · intro m s hm
    simp [Milestones.trackMilestone, hm]
  · intro m s
    by_cases hm : m ∈ s
    · simp [Milestones.trackMilestone, hm]
    · simp only [Milestones.trackMilestone, hm, if_false]
      exact Finset.subset_insert m s
  · intro s
    rfl
  · intro m s steps hnr
    exact ⟨Milestones.runTrace_subset steps s hnr,
      Milestones.runTrace_count_le_one m steps s hnr⟩

/-- C4 witness: concrete evaluation with milestone 50 checked twice on one
page. -/
theorem milestone_single_fire_per_route_witness :
    Milestones.trackMilestone 25 {25} = ({25}, []) ∧
    ({25} : Finset Nat) ⊆ (Milestones.trackMilestone 50 {25}).1 ∧
    Milestones.runStep {25, 50} Milestones.PageStep.routeChange = (∅, []) ∧
    (({25} : Finset Nat) ⊆
        (Milestones.runTrace {25}
          [Milestones.PageStep.milestone 50, Milestones.PageStep.milestone 50]).1 ∧
      (Milestones.runTrace {25}
          [Milestones.PageStep.milestone 50, Milestones.PageStep.milestone 50]).2.count
          50 ≤ 1) := by
  have h := milestone_single_fire_per_route
  exact ⟨h.1 25 {25} (by decide), h.2.1 50 {25}, h.2.2.1 _,
    h.2.2.2 50 {25} [Milestones.PageStep.milestone 50, Milestones.PageStep.milestone 50]
      (by decide)⟩

/-- C5: `waitForPostHog` performs at most `maxAttempts` readiness checks
(for `maxAttempts ≥ 1`): when PostHog first becomes ready at check `i` the
callback is invoked exactly once (outcome `called (i + 1)`); when it never
becomes ready within the bound the helper stops after exactly `maxAttempts`
checks with a warning and no callback (outcome `gaveUp maxAttempts`);
whereas the queue-flush poll `waitForPostHogAndFlush` retries without bound:
if PostHog is never ready it is still pending after any number of checks. -/
theorem waitforposthog_bounded_flush_poll_unbounded :
    (∀ (ready : Nat → Bool) (maxAttempts : Nat), 1 ≤ maxAttempts →
        ClientProvider.checksOf (ClientProvider.waitForPostHog ready maxAttempts) ≤
          maxAttempts) ∧
    (∀ (ready : Nat → Bool) (maxAttempts : Nat), 1 ≤ maxAttempts →
        (∀ i, i < maxAttempts → ready i = false) →
        ClientProvider.waitForPostHog ready maxAttempts =
          ClientProvider.WaitResult.gaveUp maxAttempts) ∧
    (∀ (ready : Nat → Bool) (maxAttempts i : Nat), i < maxAttempts →
        (∀ j, j < i → ready j = false) → ready i = true →
        ClientProvider.waitForPostHog ready maxAttempts =
          ClientProvider.WaitResult.called (i + 1)) ∧
    (∀ (ready : Nat → Bool) (s : QueuedProvider.ProviderState) (fuel : Nat),
        (∀ i, ready i = false) →
        QueuedProvider.flushPoll ready s fuel = none) := by
  refine ⟨?_, ?_, ?_, ?_⟩
  · intro ready maxAttempts hmax
    have h := ClientProvider.waitCheck_checks_le ready (maxAttempts - 1) 0
    simp only [ClientProvider.waitForPostHog]
    omega
  · intro ready maxAttempts hmax hnever
    have h := ClientProvider.waitCheck_never_ready ready (maxAttempts - 1) 0
      (fun i hi => hnever i (by omega))
    have harith : 0 + (maxAttempts - 1) + 1 = maxAttempts := by omega
    rw [harith] at h
    simpa only [ClientProvider.waitForPostHog] using h
  · intro ready maxAttempts i hi hbefore hready
    have h := ClientProvider.waitCheck_first_ready ready (maxAttempts - 1) 0 i
      (Nat.zero_le i) (by omega) (fun j _ hji => hbefore j hji) hready
    simpa only [ClientProvider.waitForPostHog] using h
  · intro ready s fuel hnever
    simpa only [QueuedProvider.flushPoll] using
      QueuedProvider.flushPollAux_never_ready ready s hnever 0 fuel

/-- C5 witness: a ten-attempt run that becomes ready at the third check, a
five-attempt run that never becomes ready, and a never-ready flush poll
observed for seven checks. -/
theorem waitforposthog_bounded_flush_poll_unbounded_witness :
    ClientProvider.checksOf
        (ClientProvider.waitForPostHog (fun i => decide (i = 2)) 10) ≤ 10 ∧
    ClientProvider.waitForPostHog (fun _ => false) 5 =
      ClientProvider.WaitResult.gaveUp 5 ∧
    ClientProvider.waitForPostHog (fun i => decide (i = 2)) 10 =
      ClientProvider.WaitResult.called 3 ∧
    QueuedProvider.flushPoll (fun _ => false)
        { eventQueue := [], captured := [] } 7 = none := by
  have h := waitforposthog_bounded_flush_poll_unbounded
  exact ⟨h.1 (fun i => decide (i = 2)) 10 (by omega),
    h.2.1 (fun _ => false) 5 (by omega) (fun i _ => rfl),
    h.2.2.1 (fun i => decide (i = 2)) 10 2 (by omega) (by decide) (by decide),
    h.2.2.2 (fun _ => false) { eventQueue := [], captured := [] } 7 (fun i => rfl)⟩

/-- C6: when either PostHog credential is unset, `getPostHogClient` returns
`null`, `trackEvent` returns normally without performing any capture, and
the client-side instrumentation never initializes the PostHog SDK. -/
theorem missing_env_disables_tracking (key host : Option String)
    (event distinctId : String) (props : List (String × String))
    (h : key = none ∨ host = none) :
    ServerPostHog.getPostHogClient key host = none ∧
    ServerPostHog.trackEvent key host event distinctId props = [] ∧
    ServerPostHog.clientInitRuns key host = false := by
  have hc : ServerPostHog.getPostHogClient key host = none := by
    rcases h with h | h <;> subst h <;>
      simp [ServerPostHog.getPostHogClient, ServerPostHog.envFalsy]
  refine ⟨hc, ?_, ?_⟩
  · simp [ServerPostHog.trackEvent, hc]
  · rcases h with h | h <;> subst h <;>
      simp [ServerPostHog.clientInitRuns, ServerPostHog.envFalsy]

/-- C6 witness: concrete evaluation with the key unset and the host set. -/
theorem missing_env_disables_tracking_witness :
    ServerPostHog.getPostHogClient none (some "https://us.posthog.com") = none ∧
    ServerPostHog.trackEvent none (some "https://us.posthog.com")
        "demo_requested" "anon_1_x" [] = [] ∧
    ServerPostHog.clientInitRuns none (some "https://us.posthog.com") = false :=
  missing_env_disables_tracking none (some "https://us.posthog.com")
    "demo_requested" "anon_1_x" [] (Or.inl rfl)

/-- C7: when the variant-list fetch in the `ABTestHero` server component
throws, the component logs a warning and still renders: `allVariants` is
exactly the control variant built from the main content item's fields, with
`variant = "control"`. -/
theorem abtesthero_fetch_error_control_only (heading description : String)
    (cta : Option CMS.URLField) (image : CMS.ImageField)
    (imagePosition : Option String) (r e : String) (hr : r ≠ "") :
    ABHero.abTestHeroAllVariants heading description cta image imagePosition
        (some r) (Except.error e) =
      ([ABHero.abTestHeroControl heading description cta image imagePosition],
        true) ∧
    (ABHero.abTestHeroControl heading description cta image imagePosition).variant =
      "control" := by
  constructor
  · simp [ABHero.abTestHeroAllVariants, hr]
  · rfl

/-- C7 witness: concrete evaluation with a failing variants fetch. -/
theorem abtesthero_fetch_error_control_only_witness :
    ABHero.abTestHeroAllVariants "Build faster" "Ship sites" none Sample.image
        none (some "heroVariants") (Except.error "CMS timeout") =
      ([ABHero.abTestHeroControl "Build faster" "Ship sites" none Sample.image none],
        true) ∧
    (ABHero.abTestHeroControl "Build faster" "Ship sites" none Sample.image
        none).variant = "control" :=
  abtesthero_fetch_error_control_only "Build faster" "Ship sites" none Sample.image
    none "heroVariants" "CMS timeout" (by decide)

/-- C8: personalized content substitution happens exactly when the URL
search params resolve to an audience content ID matching a CMS segment item:
`PersonalizedBackgroundHero` then merges the matching personalized item into
the defaults per-field (each field taken from the item when present, falling
back to the default), and otherwise renders the default content unchanged;
`PersonalizedLogoStrip` then keeps exactly the customers whose audience
content ID equals the resolved one, and otherwise keeps the full list. -/
theorem personalization_iff_audience_match :
    (∀ (d : Personalization.PBHContent) (items : List Personalization.PBHItem)
        (aid : Nat) (p : Personalization.PBHItem),
        items.find? (fun item => item.audienceDropdown == some aid) = some p →
        Personalization.personalizedBackgroundHero d items true (some aid) =
          (Personalization.mergeContent p.content d, true)) ∧
    (∀ (p d : Personalization.PBHContent),
        (p.heading ≠ "" → (Personalization.mergeContent p d).heading = p.heading) ∧
        (p.heading = "" → (Personalization.mergeContent p d).heading = d.heading) ∧
        (p.description ≠ "" →
          (Personalization.mergeContent p d).description = p.description) ∧
        (p.description = "" →
          (Personalization.mergeContent p d).description = d.description) ∧
        (p.backgroundType ≠ "" →
          (Personalization.mergeContent p d).backgroundType = p.backgroundType) ∧
        (p.backgroundType = "" →
          (Personalization.mergeContent p d).backgroundType = d.backgroundType) ∧
        (∀ x, p.cta1 = some x → (Personalization.mergeContent p d).cta1 = some x) ∧
        (p.cta1 = none → (Personalization.mergeContent p d).cta1 = d.cta1) ∧
        (∀ x, p.cta2 = some x → (Personalization.mergeContent p d).cta2 = some x) ∧
        (p.cta2 = none → (Personalization.mergeContent p d).cta2 = d.cta2) ∧
        (∀ x, p.backgroundImage = some x →
          (Personalization.mergeContent p d).backgroundImage = some x) ∧
        (p.backgroundImage = none →
          (Personalization.mergeContent p d).backgroundImage = d.backgroundImage)) ∧
    (∀ (d : Personalization.PBHContent) (items : List Personalization.PBHItem)
        (aid : Nat),
        items.find? (fun item => item.audienceDropdown == some aid) = none →
        Personalization.personalizedBackgroundHero d items true (some aid) =
          (d, false)) ∧
    (∀ (d : Personalization.PBHContent) (items : List Personalization.PBHItem)
        (sp : Bool),
        Personalization.personalizedBackgroundHero d items sp none = (d, false)) ∧
    (∀ (d : Personalization.PBHContent) (items : List Personalization.PBHItem)
        (a : Option Nat),
        Personalization.personalizedBackgroundHero d items false a = (d, false)) ∧
    (∀ (customers : List Personalization.CustomerProfile) (aid : Nat)
        (c : Personalization.CustomerProfile),
        c ∈ Personalization.personalizedLogoStrip customers true (some aid) ↔
          c ∈ customers ∧ c.audience = some aid) ∧
    (∀ (customers : List Personalization.CustomerProfile) (sp : Bool),
        Personalization.personalizedLogoStrip customers sp none = customers) ∧
    (∀ (customers : List Personalization.CustomerProfile) (a : Option Nat),
        Personalization.personalizedLogoStrip customers false a = customers) := by
  refine ⟨?_, ?_, ?_, ?_, ?_, ?_, ?_, ?_⟩
  · intro d items aid p hf
    simp [Personalization.personalizedBackgroundHero, hf]
  · intro p d
    refine ⟨?_, ?_, ?_, ?_, ?_, ?_, ?_, ?_, ?_, ?_, ?_, ?_⟩ <;>
      intro h <;>
      simp_all [Personalization.mergeContent, Personalization.strFallback,
        Personalization.optFallback]
  · intro d items aid hf
    simp [Personalization.personalizedBackgroundHero, hf]
  · intro d items sp
    cases sp <;> simp [Personalization.personalizedBackgroundHero]
  · intro d items a
    simp [Personalization.personalizedBackgroundHero]
  · intro customers aid c
    simp [Personalization.personalizedLogoStrip, List.mem_filter]
  · intro customers sp
    cases sp <;> simp [Personalization.personalizedLogoStrip]
  · intro customers a
    simp [Personalization.personalizedLogoStrip]

/-- C8 witness: concrete evaluations of the substitution and filtering. -/
theorem personalization_iff_audience_match_witness :
    Personalization.personalizedBackgroundHero Sample.defaultContent
        [Sample.persItem] true (some 7) =
      (Personalization.mergeContent Sample.persContent Sample.defaultContent,
        true) ∧
    (Personalization.mergeContent Sample.persContent Sample.defaultContent).heading =
      Sample.persContent.heading ∧
    (Personalization.mergeContent Sample.persContent
        Sample.defaultContent).description = Sample.defaultContent.description ∧
    Personalization.personalizedBackgroundHero Sample.defaultContent [] true
        (some 7) = (Sample.defaultContent, false) ∧
    (Sample.customerA ∈ Personalization.personalizedLogoStrip
          [Sample.customerA, Sample.customerB] true (some 7) ↔
        Sample.customerA ∈ [Sample.customerA, Sample.customerB] ∧
          Sample.customerA.audience = some 7) := by
  have h := personalization_iff_audience_match
  refine ⟨?_, ?_, ?_, ?_, ?_⟩
  · exact h.1 Sample.defaultContent [Sample.persItem] 7 Sample.persItem (by decide)
  · exact (h.2.1 Sample.persContent Sample.defaultContent).1 (by decide)
  · exact (h.2.1 Sample.persContent Sample.defaultContent).2.2.2.1 (by decide)
  · exact h.2.2.1 Sample.defaultContent [] 7 rfl
  · exact h.2.2.2.2.2.1 [Sample.customerA, Sample.customerB] 7 Sample.customerA

/-- C9: `getScrollDepth` is total; it returns 100 whenever the document
height minus the window height is nonpositive (so the division never runs
with a nonpositive divisor), is always at most 100, and is nonnegative for
every nonnegative scroll offset. -/
theorem getscrolldepth_total_range (scrollTop docHeight winHeight : ℚ) :
    (docHeight - winHeight ≤ 0 →
        ScrollDepth.getScrollDepth scrollTop docHeight winHeight = 100) ∧
    ScrollDepth.getScrollDepth scrollTop docHeight winHeight ≤ 100 ∧
    (0 ≤ scrollTop →
        0 ≤ ScrollDepth.getScrollDepth scrollTop docHeight winHeight) := by
  refine ⟨?_, ?_, ?_⟩
  · intro h
    simp [ScrollDepth.getScrollDepth, h]
  · by_cases h : docHeight - winHeight ≤ 0
    · simp [ScrollDepth.getScrollDepth, h]
    · simp only [ScrollDepth.getScrollDepth, h, if_false]
      exact min_le_left _ _
  · intro hst
    by_cases h : docHeight - winHeight ≤ 0
    · simp [ScrollDepth.getScrollDepth, h]
    · have hpos : 0 < docHeight - winHeight := not_le.mp h
      have hq : 0 ≤ scrollTop / (docHeight - winHeight) * 100 :=
        mul_nonneg (div_nonneg hst (le_of_lt hpos)) (by norm_num)
      have hr : (0 : ℤ) ≤ round (scrollTop / (docHeight - winHeight) * 100) := by
        rw [round_eq]
        refine Int.le_floor.mpr ?_
        push_cast
        linarith
      simp only [ScrollDepth.getScrollDepth, h, if_false]
      exact le_min (by norm_num) hr

/-- C9 witness: a non-scrollable page yields 100; a concrete scrollable
page yields a value within the bounds. -/
theorem getscrolldepth_total_range_witness :
    ScrollDepth.getScrollDepth 50 100 300 = 100 ∧
    ScrollDepth.getScrollDepth 50 300 100 ≤ 100 ∧
    (0 : ℤ) ≤ ScrollDepth.getScrollDepth 50 300 100 := by
  have h1 := getscrolldepth_total_range 50 100 300
  have h2 := getscrolldepth_total_range 50 300 100
  exact ⟨h1.1 (by norm_num), h2.2.1, h2.2.2 (by norm_num)⟩

/-- C10: `getOrCreateUserId` returns `"server"` and leaves storage untouched
when `window` is undefined; in the browser the first call with empty storage
stores a freshly generated id, and any later call (with storage otherwise
unchanged) returns exactly the id the previous call produced, leaving the
stored value unchanged. -/
theorem getorcreateuserid_idempotent :
    (∀ (store : Option String) (now : Nat) (rand : String),
        UserId.getOrCreateUserId false store now rand = ("server", store)) ∧
    (∀ (now : Nat) (rand : String),
        UserId.getOrCreateUserId true none now rand =
          (UserId.mkUserId now rand, some (UserId.mkUserId now rand))) ∧
    (∀ (store : Option String) (now now2 : Nat) (rand rand2 : String),
        UserId.getOrCreateUserId true
            (UserId.getOrCreateUserId true store now rand).2 now2 rand2 =
          ((UserId.getOrCreateUserId true store now rand).1,
           (UserId.getOrCreateUserId true store now rand).2)) := by
  refine ⟨?_, ?_, ?_⟩
  · intro store now rand
    rfl
  · intro now rand
    rfl
  · intro store now now2 rand rand2
    cases store with
    | none =>
      have hne := UserId.mkUserId_ne_empty now rand
      simp [UserId.getOrCreateUserId, hne]
    | some uid =>
      by_cases hu : uid = ""
      · subst hu
        have hne := UserId.mkUserId_ne_empty now rand
        simp [UserId.getOrCreateUserId, hne]
      · simp [UserId.getOrCreateUserId, hu]
